import Mathlib

/-!
Verification of the subscriber-group key distributor `DistSGKey`
(src/include/dct/distributors/dist_sgkey.hpp) against its natural-language
specification.  The C++ is shallowly embedded: byte arrays become `List Nat`,
the distributor's mutable fields become a `DState` record, each handler
becomes a pure function `DState → DState × List Effect` where `Effect`
records the externally visible calls (publications, callbacks, timer
operations), and libsodium/TLV primitives that sit outside the distributor
are abstracted into an `Env` of functions.
-/

namespace DistSGKey

/-- A byte string (each entry is one unsigned byte). Thumbprints are 32-byte
digests; we model them as lists so that the source's span/array comparisons
can be stated exactly. -/
abbrev Bytes := List Nat

/-- Lexicographic comparison of byte arrays, exactly
std::lexicographical_compare as used by std::array operator< in
`m_tp < p.thumbprint()` and by std::map's key order. -/
def arrayLt : Bytes → Bytes → Bool
  | [], [] => false
  | [], _ :: _ => true
  | _ :: _, [] => false
  | a :: as, b :: bs => if a < b then true else if b < a then false else arrayLt as bs

/-- The `less` lambda of receiveSGKeyRecords (dist_sgkey.hpp lines 300-306):
memcmp over the shorter length, ties broken by size. -/
def spanLess : Bytes → Bytes → Bool
  | [], [] => false
  | [], _ :: _ => true
  | _ :: _, [] => false
  | a :: as, b :: bs => if a < b then true else if b < a then false else spanLess as bs

/-- Modelled from the spec: `maxPubSize` is defined outside src/ ; the source
comment at dist_sgkey.hpp line 520 gives its default, 1024 bytes. -/
def maxPubSize : Nat := 1024

/-- Modelled from the spec: libsodium's X25519 public key size (spec section 3:
pk_group is 32 bytes). -/
def crypto_kx_PUBLICKEYBYTES : Nat := 32

/-- Modelled from the spec: libsodium's X25519 secret key size (spec section 3:
sk_group is 32 bytes). -/
def crypto_kx_SECRETKEYBYTES : Nat := 32

/-- Modelled from the spec: sealed-box overhead, spec section 4.1: "a fixed
constant (about 48 bytes: ephemeral pk + MAC)". -/
def crypto_box_SEALBYTES : Nat := 48

/-- Modelled from the spec: `thumbPrint` is a std::array of thumbPrint_s = 32
bytes (spec section 3: "fixed-width (e.g., 32-byte) cryptographic digest"),
so sizeof(thumbPrint) = 32. -/
def thumbPrintSz : Nat := 32

/-- dist_sgkey.hpp line 63. -/
def kxpkKeySz : Nat := crypto_kx_PUBLICKEYBYTES

/-- dist_sgkey.hpp line 64. -/
def kxskKeySz : Nat := crypto_kx_SECRETKEYBYTES

/-- dist_sgkey.hpp line 65: encSGKeySz = crypto_box_SEALBYTES + kxskKeySz. -/
def encSGKeySz : Nat := crypto_box_SEALBYTES + kxskKeySz

/-- dist_sgkey.hpp line 82: max key records per publication,
(maxPubSize - kxpkKeySz - 8 - 96) / (sizeof(thumbPrint) + encSGKeySz). -/
def maxKR : Nat := (maxPubSize - kxpkKeySz - 8 - 96) / (thumbPrintSz + encSGKeySz)

/-- The spec's formula for the maximum records per publication, written from
the words of spec section 4.2: floor((maxPubSize - pk_size - ct_size -
overhead) / record_size) with pk_size = 32, ct_size = 8, overhead = 96 and
record_size = thumbprint_size + sealed_sk_size, sealed_sk_size = sealed-box
overhead + 32. -/
def maxKRspecFormula : Nat := (maxPubSize - 32 - 8 - 96) / (thumbPrintSz + (crypto_box_SEALBYTES + 32))

/-- The all-zero 32-byte array: value of `m_kmtp.fill(0)` and of a
value-initialized xmpk entry created by std::map operator[]. -/
def zero32 : Bytes := List.replicate 32 0

/-- One sealed key record: (recipient thumbprint, sealed secret key), the
`egkr` pair of dist_sgkey.hpp line 80. -/
abbrev EGKR := Bytes × Bytes

/-- Parsed content of a key-record publication. Each field is `none` when the
corresponding tlv decode (tags 36, 150, 130) throws in the source's try
block; the fields are decoded in this order, a later failure leaves the
earlier values usable. -/
structure PubContent where
  ct : Option Nat
  pk : Option Bytes
  krs : Option (List EGKR)
  deriving Repr, DecidableEq

/-- A key-record publication as receiveSGKeyRecords sees it: the signer
thumbprint from the signature info, the name components
<epoch><low tpId><high tpId><timestamp> following the kr prefix, and the
content. -/
structure KRPub where
  signerTp : Bytes
  epoch : Nat
  tpl : Bytes
  tph : Bytes
  ts : Nat
  content : Option PubContent
  deriving Repr, DecidableEq

/-- A key-record publication as the key maker emits it via publishKeyRange:
name components epoch/<low 4-byte tpId>/<high 4-byte tpId>/<timestamp>,
tlv content fields (creation time, group public key, sealed records) and the
confirmation-callback flag. -/
structure KROut where
  epoch : Nat
  tpl : Bytes
  tph : Bytes
  ts : Nat
  ct : Nat
  pk : Bytes
  recs : List EGKR
  conf : Bool
  deriving Repr, DecidableEq

/-- Externally visible actions of the distributor: calls on m_sync, the
new-key callback m_newKeyCb and the connected callback m_connCb. -/
inductive Effect where
  | publishMR : Effect
  | publishKR : KROut → Effect
  | newKey : Bytes → Bytes → Nat → Effect
  | connected : Bool → Effect
  | unsubscribeMR : Effect
  | subscribeKR : Effect
  | subscribeMR : Effect
  | oneTimeMR : Nat → Effect
  | oneTimeRekey : Nat → Effect
  deriving Repr, DecidableEq

/-- The distributor's mutable fields. Timers are modelled as (handle,
duration-in-ms) pairs held in `mrTimers` (the live membership-request refresh
timers), with `mrRefresh` the handle stored in m_mrRefresh and `nextTimer`
a supply of fresh handles. -/
structure DState where
  tp : Bytes
  kmtp : Bytes
  curKeyCT : Nat
  KMepoch : Nat
  keyMaker : Bool
  subr : Bool
  init : Bool
  pubdist : Bool
  mrPending : Bool
  sgPK : Bytes
  sgSK : Bytes
  mbrList : List (Bytes × Bytes)
  reKeyInt : Nat
  keyRand : Nat
  mrTimers : List (Nat × Nat)
  mrRefresh : Nat
  nextTimer : Nat
  deriving Repr, DecidableEq

/-- External collaborators (cert store capabilities, libsodium) abstracted as
functions. -/
structure Env where
  kmpri : Bytes → Int
  sgMem : Bytes → Bool
  sealOpen : Bytes → Option Bytes
  sealFor : Bytes → Bytes → Bytes
  certValidUntil : Bytes → Option Nat
  certPk : Bytes → Bytes
  pkToCurve : Bytes → Option Bytes
  certName1 : Bytes → String

/-- m_mrRefresh->cancel(): removes the timer whose handle is the one stored
in m_mrRefresh from the live set. -/
def cancelMRRefresh (s : DState) : DState :=
  { s with mrTimers := s.mrTimers.filter (fun t => t.1 != s.mrRefresh) }

/-- publishMembershipReq (dist_sgkey.hpp lines 157-166): cancel any scheduled
refresh, return if no subscriber capability, otherwise publish a signed
empty membership request, set m_mrPending and schedule a refresh after
m_keyLifetime = m_reKeyInt + m_keyRand (constructor line 126). -/
def publishMembershipReq (s : DState) : DState × List Effect :=
  let s1 := cancelMRRefresh s
  if !s1.subr then (s1, [])
  else
    let s2 := { s1 with mrPending := true }
    let s3 := { s2 with
                mrTimers := (s2.nextTimer, s2.reKeyInt + s2.keyRand) :: s2.mrTimers
                mrRefresh := s2.nextTimer
                nextTimer := s2.nextTimer + 1 }
    (s3, [Effect.publishMR])

/-- receivedGK (dist_sgkey.hpp lines 171-174): cancel any pending refresh of
the membership request and clear the pending flag. -/
def receivedGK (s : DState) : DState :=
  let s1 := cancelMRRefresh s
  { s1 with mrPending := false }

/-- initDone (dist_sgkey.hpp lines 241-247): if still initializing, clear the
init flag and only then invoke the connected callback with true. -/
def initDone (s : DState) : DState × List Effect :=
  if s.init then ({ s with init := false }, [Effect.connected true]) else (s, [])

/-- Tail of receiveSGKeyRecords (dist_sgkey.hpp lines 324-368): decode the
content (the try block, a decode failure returns silently), drop keys that
are not newer than m_curKeyCT, hand a pure publisher the public key, and let
a subscriber search the record list for its thumbprint, open the sealed box
and adopt the pair. `s` is the state after the epoch and key-maker-drift
adjustments. -/
def recvContent (env : Env) (s : DState) (p : KRPub) : DState × List Effect :=
  match p.content with
  | none => (s, [])
  | some c =>
    match c.ct with
    | none => (s, [])
    | some newCT =>
      if newCT ≤ s.curKeyCT then (s, [])
      else
        match c.pk with
        | none => (s, [])
        | some sgPK =>
          if !s.subr then
            let s1 := { s with curKeyCT := newCT }
            let r := if s1.init then initDone s1 else (s1, [])
            (r.1, Effect.newKey sgPK [] newCT :: r.2)
          else
            match c.krs with
            | none => (s, [])
            | some krs =>
              match krs.find? (fun kr => kr.1 == s.tp) with
              | none => (s, [])
              | some kr =>
                match env.sealOpen kr.2 with
                | none => (s, [])
                | some sgSK =>
                  let s1 := { s with curKeyCT := newCT }
                  let s2 := receivedGK s1
                  let r := if s2.init then initDone s2 else (s2, [])
                  (r.1, Effect.newKey sgPK sgSK newCT :: r.2)

/-- The range check of receiveSGKeyRecords (dist_sgkey.hpp lines 312-323),
entered with the state `s2` left by the epoch and key-maker-drift
adjustments: a subscriber whose thumbprint prefix lies outside the
name's [tpl, tph] range (by the memcmp-based `less`) returns here; `newCT`
models the variable declared and zero-initialized at line 312 — the
content's creation time is decoded only later, so the deferred
membership-request branch compares m_curKeyCT with 0. Everyone else falls
through to the content processing. -/
def recvRange (env : Env) (s2 : DState) (p : KRPub) : DState × List Effect :=
  let newCT : Nat := 0
  let tpId := s2.tp.take p.tpl.length
  if s2.subr && (spanLess tpId p.tpl || spanLess p.tph tpId) then
    if s2.curKeyCT < newCT && !s2.mrPending then (s2, [Effect.oneTimeMR 2000])
    else (s2, [])
  else recvContent env s2 p

/-- receiveSGKeyRecords (dist_sgkey.hpp lines 257-368), the admission gates in
source order: signer key-maker authority, self-is-key-maker conflict
resolution (largest thumbprint wins), init-state membership request, epoch
check, key-maker drift, then the subscriber range check and content
processing (recvRange). -/
def receiveSGKeyRecords (env : Env) (s : DState) (p : KRPub) : DState × List Effect :=
  if env.kmpri p.signerTp ≤ 0 then (s, [])
  else if s.keyMaker then
    if arrayLt s.tp p.signerTp then
      let s1 := { s with keyMaker := false, kmtp := p.signerTp }
      let r := publishMembershipReq s1
      (r.1, Effect.unsubscribeMR :: r.2)
    else (s, [])
  else if s.init && s.subr && !s.mrPending then
    publishMembershipReq s
  else if p.epoch != s.KMepoch && decide (1 < p.epoch) then (s, [])
  else
    let s1 := if p.epoch != s.KMepoch then { s with KMepoch := p.epoch, kmtp := zero32 } else s
    let s2 := if arrayLt s1.kmtp p.signerTp then { s1 with curKeyCT := 0, kmtp := p.signerTp } else s1
    recvRange env s2 p

/-- std::map insert-or-assign as performed by m_mbrList[tp] = v, keeping the
list ordered by the key order std::map uses (std::array operator<). -/
def mapInsert (k : Bytes) (v : Bytes) : List (Bytes × Bytes) → List (Bytes × Bytes)
  | [] => [(k, v)]
  | kv :: rest =>
    if arrayLt k kv.1 then (k, v) :: kv :: rest
    else if arrayLt kv.1 k then kv :: mapInsert k v rest
    else (k, v) :: rest

/-- std::map::erase by key. -/
def mapErase (k : Bytes) (l : List (Bytes × Bytes)) : List (Bytes × Bytes) :=
  l.filter (fun kv => kv.1 != k)

/-- std::map::find by key, returning the mapped value. -/
def mapLookup (k : Bytes) (l : List (Bytes × Bytes)) : Option Bytes :=
  (l.find? (fun kv => kv.1 == k)).map (fun kv => kv.2)

/-- The expiry sweep of makeSGKey (dist_sgkey.hpp line 455): erase members
whose cert is absent from the store or whose validUntil is not after now. -/
def sweepMbrs (env : Env) (now : Nat) (l : List (Bytes × Bytes)) : List (Bytes × Bytes) :=
  l.filter (fun kv =>
    match env.certValidUntil kv.1 with
    | some vu => decide (now < vu)
    | none => false)

/-- The sealing loop of makeSGKey (dist_sgkey.hpp lines 458-463): for each
member, seal the new group secret key to the member's X25519 public key. -/
def sealedPairs (env : Env) (sk : Bytes) (l : List (Bytes × Bytes)) : List EGKR :=
  l.map (fun kv => (kv.1, env.sealFor sk kv.2))

/-- publishKeyRange (dist_sgkey.hpp lines 430-440): name the publication with
the epoch, the first 4 bytes of the low and high thumbprints and the
timestamp, attach the encoded content and the optional confirmation flag. -/
def publishKeyRange (epoch : Nat) (tpl tph : Bytes) (ts ct : Nat) (pk : Bytes)
    (recs : List EGKR) (conf : Bool) : KROut :=
  { epoch := epoch, tpl := tpl.take 4, tph := tph.take 4, ts := ts, ct := ct,
    pk := pk, recs := recs, conf := conf }

/-- The publication loop of makeSGKey (dist_sgkey.hpp lines 467-487). `fuel`
is the number of iterations left (initially p, the number of publications),
`i` the loop counter and `s` the count of records not yet published; each
iteration takes r records from position i*maxKR, where r is maxKR except in
the last iteration, and names the publication by its first and last record's
thumbprint. With an empty member list a single anchor record using the key
maker's own thumbprint is published with a confirmation callback. -/
def krGo (epoch ct ts : Nat) (pk selfTp : Bytes) (pairs : List EGKR) :
    Nat → Nat → Nat → List KROut
  | 0, _, _ => []
  | fuel + 1, i, s =>
    if pairs.length == 0 then
      [publishKeyRange epoch selfTp selfTp ts ct pk [] true]
    else
      let r := if 0 < fuel then maxKR else s
      let l := i * maxKR
      let chunk := (pairs.drop l).take r
      publishKeyRange epoch (pairs.getD l ([], [])).1 (pairs.getD (l + r - 1) ([], [])).1
          ts ct pk chunk false
        :: krGo epoch ct ts pk selfTp pairs fuel (i + 1) (s - r)

/-- makeSGKey (dist_sgkey.hpp lines 444-490): install the fresh key pair
(`newPk`, `newSk` stand for the crypto_kx_keypair output) and creation time,
sweep expired members, seal the secret key for every remaining member, fire
the new-key callback locally, then publish the sorted pair list in chunks of
at most maxKR records, all sharing one timestamp; with members present while
still initializing, exit init. -/
def makeSGKey (env : Env) (s : DState) (newPk newSk : Bytes) (ct now ts : Nat) :
    DState × List Effect :=
  let s1 := { s with sgPK := newPk, sgSK := newSk, curKeyCT := ct,
                     mbrList := sweepMbrs env now s.mbrList }
  let pairs := sealedPairs env s1.sgSK s1.mbrList
  let n := pairs.length
  let p := if n ≤ maxKR then 1 else (n + maxKR - 1) / maxKR
  let pubs := krGo s1.KMepoch ct ts s1.sgPK s1.tp pairs p 0 n
  let r := if s1.init && s1.mbrList.length != 0 then initDone s1 else (s1, [])
  (r.1, Effect.newKey newPk newSk ct :: (pubs.map Effect.publishKR ++ r.2))

/-- sgkeyTimeout (dist_sgkey.hpp lines 494-498): the periodic rekey; the timer
is not cancellable so a peer that lost key-maker status self-gates, otherwise
it rekeys and schedules the next cycle. -/
def sgkeyTimeout (env : Env) (s : DState) (newPk newSk : Bytes) (ct now ts : Nat) :
    DState × List Effect :=
  if !s.keyMaker then (s, [])
  else
    let r := makeSGKey env s newPk newSk ct now ts
    (r.1, r.2 ++ [Effect.oneTimeRekey s.reKeyInt])

/-- addGroupMem (dist_sgkey.hpp lines 516-548): admit a membership request.
Note the conversion step: m_mbrList[tp] first default-inserts a zeroed entry
(std::map operator[]), the Ed25519-to-X25519 conversion writes into it, and
on a non-zero return the entry is erased again. -/
def addGroupMem (env : Env) (s : DState) (tp : Bytes) (ts : Nat) : DState × List Effect :=
  if !s.keyMaker then (s, [])
  else if s.mbrList.length == 80 * maxKR then (s, [])
  else if !(env.sgMem tp) then (s, [])
  else if s.pubdist && env.certName1 tp == "relay" then (s, [])
  else
    match env.pkToCurve (env.certPk tp) with
    | none => ({ s with mbrList := mapErase tp (mapInsert tp zero32 s.mbrList) }, [])
    | some x =>
      let s1 := { s with mbrList := mapInsert tp x s.mbrList }
      if s1.curKeyCT == 0 then (s1, [])
      else
        let ek := env.sealFor s1.sgSK x
        let pub := publishKeyRange s1.KMepoch tp tp ts s1.curKeyCT s1.sgPK [(tp, ek)] false
        let r := if s1.init then initDone s1 else (s1, [])
        (r.1, Effect.publishKR pub :: r.2)

/-- removeGroupMem (dist_sgkey.hpp lines 556-559): erase the member; if reKey
is set, mint a new key immediately without disturbing the rekey schedule. -/
def removeGroupMem (env : Env) (s : DState) (tp : Bytes) (reKey : Bool)
    (newPk newSk : Bytes) (ct now ts : Nat) : DState × List Effect :=
  let s1 := { s with mbrList := mapErase tp s.mbrList }
  if reKey then makeSGKey env s1 newPk newSk ct now ts else (s1, [])

/-- Tests the condition of the subscriber-capability mismatch branch of
updateSigningKey (dist_sgkey.hpp line 211): the stored m_subr disagrees with
the capability read from the current signing chain. -/
def sgCapMismatch (env : Env) (s : DState) (chain0 : Bytes) : Bool :=
  s.subr && !(env.sgMem chain0)

/-- Tests the condition of the key-maker-capability mismatch branch of
updateSigningKey (dist_sgkey.hpp lines 235-238): a peer that is key maker no
longer finds a positive key-maker capability on its signing chain. -/
def kmCapMismatch (env : Env) (s : DState) (chain0 : Bytes) : Bool :=
  s.keyMaker && decide (env.kmpri chain0 ≤ 0)

/-- updateSigningKey (dist_sgkey.hpp lines 191-239). The only real throw is
the chains[0] consistency check (line 195, modelled as Except.error); in the
capability-mismatch branches (lines 211-212 and 235-238) and in the two key
conversion failure branches (lines 221-223, 226-228) the source writes
std::runtime_error(...) without throw, which constructs and discards the
exception object, so those branches fall through; the model reflects that by
returning Except.ok there (skConvOk and pkConvOk report the conversions'
return codes and have no control-flow effect). -/
def updateSigningKey (env : Env) (s : DState) (chain0 certTp : Bytes)
    (_skConvOk _pkConvOk : Bool) : Except String (DState × List Effect) :=
  let s1 := { s with tp := chain0 }
  if chain0 != certTp then
    Except.error "dist_sgkey:updateSigningKey gets new key not at chains[0]"
  else
    let s2 := { s1 with subr := env.sgMem chain0 }
    if !s2.subr then Except.ok (s2, [])
    else if s2.init then Except.ok (s2, [])
    else if !s2.keyMaker then Except.ok (publishMembershipReq s2)
    else if decide (0 < env.kmpri s2.tp) then Except.ok ({ s2 with kmtp := s2.tp }, [])
    else Except.ok (s2, [])

/-- The events the single-threaded loop can deliver to a distributor after
setup: a key-record arrival, a membership request (keymaker side), the
periodic rekey timer, the membership-request refresh timer, a delivery
confirmation of the anchor key record, an explicit member removal, the
election completion, a local signing-key update, and the relay short-circuit
of setup. Event payloads carry the data external collaborators would supply
(fresh key pairs, clock readings, parsed publications). -/
inductive Event where
  | recvKR : KRPub → Event
  | mrRequest : Bytes → Nat → Event
  | rekeyTimeout : Bytes → Bytes → Nat → Nat → Nat → Event
  | mrTimeout : Event
  | confirm : Bool → Event
  | removeMem : Bytes → Bool → Bytes → Bytes → Nat → Nat → Nat → Event
  | electionDone : Bool → Nat → Bytes → Bytes → Nat → Nat → Nat → Event
  | keyUpdate : Bytes → Bytes → Bool → Bool → Event
  | relayInit : Event

/-- One event-loop step of the distributor: dispatch to the handler the
source wires to that event. The election-done callback (dist_sgkey.hpp
lines 410-419) records the outcome, subscribes, and for the winner
immediately rekeys; keyUpdate routes through updateSigningKey, where a
thrown error leaves the handler without further effects. -/
def step (env : Env) (s : DState) : Event → DState × List Effect
  | Event.recvKR p => receiveSGKeyRecords env s p
  | Event.mrRequest tp ts => addGroupMem env s tp ts
  | Event.rekeyTimeout pk sk ct now ts => sgkeyTimeout env s pk sk ct now ts
  | Event.mrTimeout => publishMembershipReq s
  | Event.confirm ok => if ok then initDone s else (s, [])
  | Event.removeMem tp rk pk sk ct now ts => removeGroupMem env s tp rk pk sk ct now ts
  | Event.electionDone elected epoch pk sk ct now ts =>
    let s1 := { s with keyMaker := elected, KMepoch := epoch }
    if !elected then (s1, [Effect.subscribeKR])
    else
      let r := sgkeyTimeout env s1 pk sk ct now ts
      (r.1, Effect.subscribeKR :: Effect.subscribeMR :: r.2)
  | Event.keyUpdate chain0 certTp skOk pkOk =>
    match updateSigningKey env s chain0 certTp skOk pkOk with
    | Except.ok r => r
    | Except.error _ => (s, [])
  | Event.relayInit => initDone s

/-- Run a sequence of events, concatenating the emitted effects. -/
def run (env : Env) (s : DState) : List Event → DState × List Effect
  | [] => (s, [])
  | e :: evs =>
    let r := step env s e
    let r2 := run env r.1 evs
    (r2.1, r.2 ++ r2.2)

/-- Number of connected(true) invocations in an effect list. -/
def connectedTrueCount (es : List Effect) : Nat :=
  es.countP (fun e =>
    match e with
    | Effect.connected true => true
    | _ => false)

/-- The key-record publications among a list of effects. -/
def krPubsOf (es : List Effect) : List KROut :=
  es.filterMap (fun e =>
    match e with
    | Effect.publishKR k => some k
    | _ => none)

/-! Concrete fixtures used by counterexamples and witnesses. -/

/-- A neutral distributor state for building concrete scenarios. -/
def s0 : DState :=
  { tp := List.replicate 32 9, kmtp := List.replicate 32 0, curKeyCT := 0, KMepoch := 0,
    keyMaker := false, subr := false, init := true, pubdist := false, mrPending := false,
    sgPK := [], sgSK := [], mbrList := [], reKeyInt := 3610000, keyRand := 10000,
    mrTimers := [], mrRefresh := 0, nextTimer := 1 }

/-- A neutral environment: every signer has key-maker authority and subscriber
capability, sealed boxes open to a fixed key, certs are valid until time 1000. -/
def env0 : Env :=
  { kmpri := fun _ => 1, sgMem := fun _ => true,
    sealOpen := fun _ => some (List.replicate 32 8),
    sealFor := fun _ v => 99 :: v,
    certValidUntil := fun _ => some 1000, certPk := fun t => t,
    pkToCurve := fun t => some t, certName1 := fun _ => "node" }

/-- C7: the compile-time constant maxKR equals
floor((maxPubSize - pk_size - ct_size - overhead) / record_size) with
pk_size = 32, ct_size = 8, overhead = 96 and record_size = thumbprint_size +
sealed_sk_size where sealed_sk_size = sealed-box overhead + 32; with the
spec's constants it evaluates to 7 records per publication. -/
theorem maxKR_eq_spec_formula : maxKR = maxKRspecFormula ∧ maxKR = 7 := by decide

/-- The subscriber state of C2's counterexample trace: a publisher-only peer
that has adopted nothing yet. -/
def sC2 : DState := { s0 with init := false }

/-- First record of C2's counterexample: epoch 1, creation time 10, signed by
the thumbprint of all 5s. -/
def pC2a : KRPub :=
  { signerTp := List.replicate 32 5, epoch := 1, tpl := [0, 0, 0, 0], tph := [255, 255, 255, 255],
    ts := 1, content := some { ct := some 10, pk := some [1], krs := some [] } }

/-- Second record of C2's counterexample: same epoch, creation time 5, signed
by the larger thumbprint of all 6s (key-maker drift). -/
def pC2b : KRPub :=
  { signerTp := List.replicate 32 6, epoch := 1, tpl := [0, 0, 0, 0], tph := [255, 255, 255, 255],
    ts := 2, content := some { ct := some 5, pk := some [2], krs := some [] } }

/-- C2 counterexample: a peer receives creation_time 10 and then
creation_time 5 from a key maker with a larger thumbprint; the new-key
callback fires for both, with adopted creation times 10 then 5, so the
adopted sequence is not strictly increasing and the second record, although
its creation_time is below the previously adopted one, is not dropped. -/
theorem adoption_not_monotone_counterexample :
    (run env0 sC2 [Event.recvKR pC2a, Event.recvKR pC2b]).2 =
      [Effect.newKey [1] [] 10, Effect.newKey [2] [] 5] := by decide

/-- The state of C3's counterexample: a subscriber at epoch 1 holding
creation time 5 and a recorded key maker of all 4s. -/
def sC3 : DState :=
  { s0 with subr := true, init := false, KMepoch := 1, curKeyCT := 5,
            kmtp := List.replicate 32 4 }

/-- The record of C3's counterexample: epoch 0 (strictly below the peer's
epoch 1) with malformed content. -/
def pC3 : KRPub :=
  { signerTp := List.replicate 32 3, epoch := 0, tpl := [0, 0, 0, 0], tph := [255, 255, 255, 255],
    ts := 3, content := none }

/-- C3 counterexample: a record whose epoch 0 is strictly less than the
peer's current epoch 1 is not dropped without state change: the peer
rewinds its epoch to 0, zeroes then re-records the key-maker thumbprint and
resets its creation time from 5 to 0. -/
theorem epoch_below_changes_state_counterexample :
    sC3.KMepoch = 1 ∧ sC3.curKeyCT = 5 ∧
    (receiveSGKeyRecords env0 sC3 pC3).1.KMepoch = 0 ∧
    (receiveSGKeyRecords env0 sC3 pC3).1.curKeyCT = 0 ∧
    (receiveSGKeyRecords env0 sC3 pC3).1.kmtp = List.replicate 32 3 := by decide

/-- The environment of C5's key-maker mismatch case: the signing chain still
has the subscriber capability but no longer a positive key-maker value. -/
def envC5 : Env := { env0 with kmpri := fun _ => 0 }

/-- The prior state of C5: a non-init key maker with subscriber capability. -/
def sC5 : DState := { s0 with subr := true, keyMaker := true, init := false }

/-- The environment of C5's subscriber mismatch case: the chain no longer
carries the subscriber-group capability. -/
def envC5b : Env := { env0 with sgMem := fun _ => false }

/-- C5: updateSigningKey does not raise on a capability mismatch. In the
subscriber-capability mismatch case (m_subr set but the chain's SG capability
gone) and in the key-maker mismatch case (m_keyMaker set but key-maker
capability no longer positive) the source constructs std::runtime_error
without throw, so the call returns normally (Except.ok) and silently
continues — in the first case even flipping m_subr to false; the claim's
required fatal error is never raised. -/
theorem updateSigningKey_mismatch_is_silent :
    sgCapMismatch envC5b sC5 (List.replicate 32 9) = true ∧
    (updateSigningKey envC5b sC5 (List.replicate 32 9) (List.replicate 32 9) true true).toOption.map
        (fun r => r.1.subr) = some false ∧
    kmCapMismatch envC5 sC5 (List.replicate 32 9) = true ∧
    (updateSigningKey envC5 sC5 (List.replicate 32 9) (List.replicate 32 9) true true).toOption.map
        (fun r => (r.1.keyMaker, r.1.kmtp == r.1.tp)) = some (true, false) := by decide

theorem publishMembershipReq_no_oneTimeMR (s : DState) (d : Nat) :
    Effect.oneTimeMR d ∉ (publishMembershipReq s).2 := by
  unfold publishMembershipReq
  simp only []
  split <;> simp

theorem initDone_no_oneTimeMR (s : DState) (d : Nat) :
    Effect.oneTimeMR d ∉ (initDone s).2 := by
  unfold initDone
  split <;> simp

theorem recvContent_no_oneTimeMR (env : Env) (s : DState) (p : KRPub) (d : Nat) :
    Effect.oneTimeMR d ∉ (recvContent env s p).2 := by
  unfold recvContent initDone
  simp only []
  split
  · simp
  split
  · simp
  split
  · simp
  split
  · simp
  split
  · simp only []
    split <;> simp
  · split
    · simp
    split
    · simp
    split
    · simp
    · simp only []
      split <;> simp

theorem recvRange_no_oneTimeMR (env : Env) (s2 : DState) (p : KRPub) (d : Nat) :
    Effect.oneTimeMR d ∉ (recvRange env s2 p).2 := by
  unfold recvRange
  simp only []
  split
  · split
    · rename_i h
      simp at h
    · simp
  · exact recvContent_no_oneTimeMR _ _ _ _

/-- The subscriber state of C1's failing input: epoch 1, current creation
time 5, no membership request pending, recorded key maker of all 9s. -/
def sC1 : DState :=
  { s0 with subr := true, init := false, KMepoch := 1, curKeyCT := 5,
            kmtp := List.replicate 32 9 }

/-- C1's failing input record: the peer's thumbprint prefix 9,9,9,9 lies
outside the advertised range [5555, 6666], and the content carries creation
time 10, newer than the peer's 5. -/
def pC1 : KRPub :=
  { signerTp := List.replicate 32 3, epoch := 1, tpl := [5, 5, 5, 5], tph := [6, 6, 6, 6],
    ts := 4, content := some { ct := some 10, pk := some [3], krs := some [] } }

/-- C1: the delayed membership request of the out-of-range branch is dead
code. The branch compares m_curKeyCT with the local newCT, which is still
zero-initialized there (the content's creation time is decoded only after
the range check), so the comparison can never hold and receiveSGKeyRecords
never schedules the deferred (2 s) membership request on any input; in
particular, on C1's failing input (record outside the range with a newer
creation time and no pending request) it returns with no action at all. -/
theorem range_branch_never_schedules_deferred_mr :
    (∀ env s p d, Effect.oneTimeMR d ∉ (receiveSGKeyRecords env s p).2) ∧
    receiveSGKeyRecords env0 sC1 pC1 = (sC1, []) := by
  constructor
  · intro env s p d
    unfold receiveSGKeyRecords
    simp only []
    split
    · simp
    split
    · split
      · simp [publishMembershipReq_no_oneTimeMR]
      · simp
    split
    · exact publishMembershipReq_no_oneTimeMR _ _
    split
    · simp
    · exact recvRange_no_oneTimeMR _ _ _ _
  · decide

/-- C4: conflict resolution when this peer believes it is the key maker and
receives a key record from an authorized signer. If the signer's full
thumbprint is byte-lexicographically greater than the peer's own (arrayLt,
the std::array comparison over all 32 bytes, not the 4-byte name prefix),
the peer demotes itself: clears the key-maker flag, records the signer as
key maker, unsubscribes from the membership-request prefix and publishes its
own membership request; otherwise the record is ignored with no state
change. -/
theorem keyMaker_demotes_iff_larger_thumbprint (env : Env) (s : DState) (p : KRPub)
    (hauth : 0 < env.kmpri p.signerTp) (hkm : s.keyMaker = true) (hsub : s.subr = true) :
    (arrayLt s.tp p.signerTp = true →
       (receiveSGKeyRecords env s p).1.keyMaker = false ∧
       (receiveSGKeyRecords env s p).1.kmtp = p.signerTp ∧
       (receiveSGKeyRecords env s p).1.mrPending = true ∧
       (receiveSGKeyRecords env s p).2 = [Effect.unsubscribeMR, Effect.publishMR]) ∧
    (arrayLt s.tp p.signerTp = false → receiveSGKeyRecords env s p = (s, [])) := by
  have hng : ¬ env.kmpri p.signerTp ≤ 0 := not_le.mpr hauth
  constructor
  · intro hlt
    simp [receiveSGKeyRecords, hng, hkm, hlt, publishMembershipReq, cancelMRRefresh, hsub]
  · intro hge
    simp [receiveSGKeyRecords, hng, hkm, hge]

/-- The concrete key maker of C4's witness: a peer with thumbprint all 9s
believing itself key maker. -/
def sC4 : DState := { s0 with keyMaker := true, subr := true }

/-- The concrete key record of C4's witness, signed by the larger thumbprint
of all 11s. -/
def pC4 : KRPub := { pC1 with signerTp := List.replicate 32 11 }

/-- Witness for C4: a concrete key maker (thumbprint all 9s) demoting to the
signer of all 11s. -/
theorem keyMaker_demotes_iff_larger_thumbprint_witness :
    (arrayLt sC4.tp pC4.signerTp = true →
       (receiveSGKeyRecords env0 sC4 pC4).1.keyMaker = false ∧
       (receiveSGKeyRecords env0 sC4 pC4).1.kmtp = pC4.signerTp ∧
       (receiveSGKeyRecords env0 sC4 pC4).1.mrPending = true ∧
       (receiveSGKeyRecords env0 sC4 pC4).2 = [Effect.unsubscribeMR, Effect.publishMR]) ∧
    (arrayLt sC4.tp pC4.signerTp = false → receiveSGKeyRecords env0 sC4 pC4 = (sC4, [])) :=
  keyMaker_demotes_iff_larger_thumbprint env0 sC4 pC4 (by decide) (by decide) (by decide)

theorem publishMembershipReq_no_newKey (s : DState) (pk sk : Bytes) (ct : Nat) :
    Effect.newKey pk sk ct ∉ (publishMembershipReq s).2 := by
  unfold publishMembershipReq
  simp only []
  split <;> simp

theorem recvContent_newKey (env : Env) (s : DState) (p : KRPub) (pk sk : Bytes) (ct : Nat)
    (hmem : Effect.newKey pk sk ct ∈ (recvContent env s p).2) :
    s.curKeyCT < ct ∧ (recvContent env s p).1.curKeyCT = ct := by
  unfold recvContent initDone at hmem ⊢
  simp only [] at hmem ⊢
  split at hmem
  · simp at hmem
  split at hmem
  · simp at hmem
  split at hmem
  · simp at hmem
  split at hmem
  · simp at hmem
  split at hmem
  · rename_i hgt _ _
    simp only [] at hmem ⊢
    split at hmem <;> split <;> simp_all
  · split at hmem
    · simp at hmem
    split at hmem
    · simp at hmem
    split at hmem
    · simp at hmem
    · rename_i hgt _ _ _ _ _
      simp only [receivedGK, cancelMRRefresh] at hmem ⊢
      split at hmem <;> split <;> simp_all

theorem recvContent_stale (env : Env) (s : DState) (p : KRPub) (c : PubContent) (n : Nat)
    (hc : p.content = some c) (hn : c.ct = some n) (hle : n ≤ s.curKeyCT) :
    recvContent env s p = (s, []) := by
  unfold recvContent
  simp [hc, hn, hle]

theorem recvRange_newKey (env : Env) (s2 : DState) (p : KRPub) (pk sk : Bytes) (ct : Nat)
    (hmem : Effect.newKey pk sk ct ∈ (recvRange env s2 p).2) :
    s2.curKeyCT < ct ∧ (recvRange env s2 p).1.curKeyCT = ct := by
  unfold recvRange at hmem ⊢
  simp only [] at hmem ⊢
  revert hmem
  split
  · split <;> simp
  · exact recvContent_newKey env s2 p pk sk ct

theorem recvRange_stale (env : Env) (s : DState) (p : KRPub) (c : PubContent) (n : Nat)
    (hc : p.content = some c) (hn : c.ct = some n) (hle : n ≤ s.curKeyCT) :
    recvRange env s p = (s, []) := by
  unfold recvRange
  simp only []
  split
  · split
    · rename_i h
      simp at h
    · rfl
  · exact recvContent_stale env s p c n hc hn hle

/-- C2 (amended): with a fixed key maker — the record's epoch equals the
peer's and the signer's thumbprint does not exceed the recorded key-maker
thumbprint, so neither the epoch reset nor the key-maker-drift reset of
m_curKeyCT fires — every adoption strictly increases the creation time:
any new-key callback carries a creation time strictly greater than the
current one and the state adopts exactly that value; and a record whose
content creation time is not newer is dropped silently, with no callback,
no other effect and no state change. (Without the fixed-key-maker proviso
the claim fails: see the counterexample, where the drift reset lets an older
creation time be adopted.) -/
theorem adoption_monotone_under_fixed_keymaker (env : Env) (s : DState) (p : KRPub)
    (hep : p.epoch = s.KMepoch) (hdr : arrayLt s.kmtp p.signerTp = false) :
    (∀ pk sk ct, Effect.newKey pk sk ct ∈ (receiveSGKeyRecords env s p).2 →
       s.curKeyCT < ct ∧ (receiveSGKeyRecords env s p).1.curKeyCT = ct) ∧
    (s.keyMaker = false → (s.init && s.subr && !s.mrPending) = false →
       ∀ c n, p.content = some c → c.ct = some n → n ≤ s.curKeyCT →
         receiveSGKeyRecords env s p = (s, [])) := by
  constructor
  · intro pk sk ct
    unfold receiveSGKeyRecords
    simp only []
    split
    · simp
    split
    · split
      · intro hmem
        simp only [List.mem_cons] at hmem
        rcases hmem with h | h
        · simp at h
        · exact absurd h (publishMembershipReq_no_newKey _ _ _ _)
      · simp
    split
    · intro hmem
      exact absurd hmem (publishMembershipReq_no_newKey _ _ _ _)
    split
    · simp
    · simp only [hep, bne_self_eq_false, Bool.false_eq_true, if_false, hdr]
      exact recvRange_newKey env s p pk sk ct
  · intro hkm hgate c n hc hn hle
    unfold receiveSGKeyRecords
    simp only []
    split
    · rfl
    split
    · rename_i h
      rw [hkm] at h
      exact absurd h (by simp)
    split
    · rename_i h
      rw [hgate] at h
      exact absurd h (by simp)
    split
    · rfl
    · simp only [hep, bne_self_eq_false, Bool.false_eq_true, if_false, hdr]
      exact recvRange_stale env s p c n hc hn hle

/-- The state of C2's witness: a subscriber holding creation time 10 from the
key maker of all 9s. -/
def sW2 : DState :=
  { s0 with subr := true, init := false, KMepoch := 1, curKeyCT := 10,
            kmtp := List.replicate 32 9 }

/-- The record of C2's witness: same epoch, smaller signer, in-range, stale
creation time 5. -/
def pW2 : KRPub :=
  { signerTp := List.replicate 32 5, epoch := 1, tpl := [0, 0, 0, 0], tph := [255, 255, 255, 255],
    ts := 9, content := some { ct := some 5, pk := some [4], krs := some [] } }

/-- Witness for C2 (amended): the concrete subscriber drops the stale record
(creation time 5 against current 10) with no effect. -/
theorem adoption_monotone_under_fixed_keymaker_witness :
    (∀ pk sk ct, Effect.newKey pk sk ct ∈ (receiveSGKeyRecords env0 sW2 pW2).2 →
       sW2.curKeyCT < ct ∧ (receiveSGKeyRecords env0 sW2 pW2).1.curKeyCT = ct) ∧
    (sW2.keyMaker = false → (sW2.init && sW2.subr && !sW2.mrPending) = false →
       ∀ c n, pW2.content = some c → c.ct = some n → n ≤ sW2.curKeyCT →
         receiveSGKeyRecords env0 sW2 pW2 = (sW2, [])) :=
  adoption_monotone_under_fixed_keymaker env0 sW2 pW2 (by decide) (by decide)

theorem recvContent_pres_epoch_kmtp (env : Env) (s : DState) (p : KRPub) :
    (recvContent env s p).1.KMepoch = s.KMepoch ∧ (recvContent env s p).1.kmtp = s.kmtp := by
  unfold recvContent initDone receivedGK cancelMRRefresh
  simp only []
  split
  · simp
  split
  · simp
  split
  · simp
  split
  · simp
  split
  · split <;> simp
  · split
    · simp
    split
    · simp
    split
    · simp
    · split <;> simp

theorem recvRange_pres_epoch_kmtp (env : Env) (s : DState) (p : KRPub) :
    (recvRange env s p).1.KMepoch = s.KMepoch ∧ (recvRange env s p).1.kmtp = s.kmtp := by
  unfold recvRange
  simp only []
  split
  · split <;> simp
  · exact recvContent_pres_epoch_kmtp env s p

/-- C3 (amended): for a non-key-maker peer past the earlier gates, a record
whose epoch differs from the peer's current epoch is dropped with no state
change exactly when that epoch exceeds 1; any differing epoch of at most 1 —
including an epoch strictly below the current one, such as 0 against a
current epoch of 1 — is adopted: the peer overwrites its epoch with the
record's and its recorded key-maker thumbprint is cleared to zero (and then
possibly re-set to the record's signer by the drift step). In particular an
epoch strictly greater than the current one is accepted exactly when it
equals 1. -/
theorem epoch_gate_amended (env : Env) (s : DState) (p : KRPub)
    (hauth : 0 < env.kmpri p.signerTp) (hkm : s.keyMaker = false)
    (hgate : (s.init && s.subr && !s.mrPending) = false) (hne : p.epoch ≠ s.KMepoch) :
    (1 < p.epoch → receiveSGKeyRecords env s p = (s, [])) ∧
    (p.epoch ≤ 1 →
       (receiveSGKeyRecords env s p).1.KMepoch = p.epoch ∧
       ((receiveSGKeyRecords env s p).1.kmtp = p.signerTp ∨
        (receiveSGKeyRecords env s p).1.kmtp = zero32)) := by
  have hng : ¬ env.kmpri p.signerTp ≤ 0 := not_le.mpr hauth
  have hbne : (p.epoch != s.KMepoch) = true := by simpa using hne
  constructor
  · intro hgt
    unfold receiveSGKeyRecords
    simp only []
    rw [if_neg hng, if_neg (by simp [hkm]), if_neg (by rw [hgate]; simp),
        if_pos (by simp [hbne, hgt])]
  · intro hle
    unfold receiveSGKeyRecords
    simp only []
    rw [if_neg hng, if_neg (by simp [hkm]), if_neg (by rw [hgate]; simp),
        if_neg (by simp [hbne]; omega), if_pos hbne]
    cases hd : arrayLt ({ s with KMepoch := p.epoch, kmtp := zero32 } : DState).kmtp p.signerTp
    · rw [if_neg (by simp [hd])]
      have h := recvRange_pres_epoch_kmtp env { s with KMepoch := p.epoch, kmtp := zero32 } p
      exact ⟨h.1, Or.inr h.2⟩
    · rw [if_pos (by simp [hd])]
      have h := recvRange_pres_epoch_kmtp env
        { s with KMepoch := p.epoch, kmtp := p.signerTp, curKeyCT := 0 } p
      exact ⟨h.1, Or.inl h.2⟩

/-- The state of C3's witness: a non-init subscriber at epoch 1. -/
def sW3 : DState := { s0 with init := false, KMepoch := 1, subr := true }

/-- The record of C3's witness: epoch 5, which differs from the peer's and
exceeds 1. -/
def pW3 : KRPub := { pC3 with epoch := 5 }

/-- Witness for C3 (amended): the concrete epoch-5 record against a peer at
epoch 1 is dropped without state change. -/
theorem epoch_gate_amended_witness :
    (1 < pW3.epoch → receiveSGKeyRecords env0 sW3 pW3 = (sW3, [])) ∧
    (pW3.epoch ≤ 1 →
       (receiveSGKeyRecords env0 sW3 pW3).1.KMepoch = pW3.epoch ∧
       ((receiveSGKeyRecords env0 sW3 pW3).1.kmtp = pW3.signerTp ∨
        (receiveSGKeyRecords env0 sW3 pW3).1.kmtp = zero32)) :=
  epoch_gate_amended env0 sW3 pW3 (by decide) (by decide) (by decide) (by decide)

/-- C8: publishMembershipReq always cancels the recorded refresh timer first,
so when every live membership-request refresh timer is the recorded one (the
invariant the distributor maintains, since this is the only function that
schedules one and it stores the handle), at most one refresh timer is live
after the call. With subscriber capability it publishes the signed empty
request, sets the pending flag and arms exactly one refresh timer of
duration m_keyLifetime = m_reKeyInt + m_keyRand; without subscriber
capability it publishes nothing and leaves the pending flag untouched. -/
theorem publishMembershipReq_idempotent (s : DState)
    (hinv : ∀ t ∈ s.mrTimers, t.1 = s.mrRefresh) :
    (∀ t ∈ (publishMembershipReq s).1.mrTimers, t.1 = (publishMembershipReq s).1.mrRefresh) ∧
    (publishMembershipReq s).1.mrTimers.length ≤ 1 ∧
    (s.subr = true →
       (publishMembershipReq s).2 = [Effect.publishMR] ∧
       (publishMembershipReq s).1.mrPending = true ∧
       (publishMembershipReq s).1.mrTimers = [(s.nextTimer, s.reKeyInt + s.keyRand)]) ∧
    (s.subr = false →
       (publishMembershipReq s).2 = [] ∧
       (publishMembershipReq s).1.mrPending = s.mrPending ∧
       (publishMembershipReq s).1.mrTimers = []) := by
  have hnil : s.mrTimers.filter (fun t => t.1 != s.mrRefresh) = [] := by
    rw [List.filter_eq_nil_iff]
    intro t ht
    simp [hinv t ht]
  cases hsub : s.subr <;>
    simp [publishMembershipReq, cancelMRRefresh, hsub, hnil]

/-- The state of C8's witness: a pending subscriber with one live refresh
timer, handle 3, and rekey parameters 3610000 + 10000 ms. -/
def sW8 : DState :=
  { s0 with subr := true, mrPending := true, mrTimers := [(3, 77)], mrRefresh := 3,
            nextTimer := 4 }

/-- Witness for C8: republishing while a refresh timer is live leaves exactly
the one fresh timer of duration reKeyInt + keyRand. -/
theorem publishMembershipReq_idempotent_witness :
    (∀ t ∈ (publishMembershipReq sW8).1.mrTimers, t.1 = (publishMembershipReq sW8).1.mrRefresh) ∧
    (publishMembershipReq sW8).1.mrTimers.length ≤ 1 ∧
    (sW8.subr = true →
       (publishMembershipReq sW8).2 = [Effect.publishMR] ∧
       (publishMembershipReq sW8).1.mrPending = true ∧
       (publishMembershipReq sW8).1.mrTimers = [(sW8.nextTimer, sW8.reKeyInt + sW8.keyRand)]) ∧
    (sW8.subr = false →
       (publishMembershipReq sW8).2 = [] ∧
       (publishMembershipReq sW8).1.mrPending = sW8.mrPending ∧
       (publishMembershipReq sW8).1.mrTimers = []) :=
  publishMembershipReq_idempotent sW8 (by decide)

theorem mapLookup_mapErase (k : Bytes) (l : List (Bytes × Bytes)) :
    mapLookup k (mapErase k l) = none := by
  induction l with
  | nil => rfl
  | cons kv rest ih =>
    by_cases h : kv.1 = k
    · have h1 : mapErase k (kv :: rest) = mapErase k rest := by
        simp [mapErase, List.filter, h]
      rw [h1]
      exact ih
    · have hb : (kv.1 == k) = false := by simpa using h
      have hbne : (kv.1 != k) = true := by simp [bne, hb]
      have h1 : mapErase k (kv :: rest) = kv :: mapErase k rest := by
        simp [mapErase, List.filter, hbne]
      rw [h1]
      simpa [mapLookup, List.find?, hb] using ih

/-- C10: when the Ed25519-to-X25519 conversion of the requester's public key
fails in addGroupMem, the member table holds no entry for that thumbprint
afterwards — the std::map operator[] entry that the conversion wrote into is
erased, including an entry that predated the request — and nothing is
published. -/
theorem addGroupMem_conversion_failure_erases (env : Env) (s : DState) (tp : Bytes) (ts : Nat)
    (hkm : s.keyMaker = true)
    (hsz : s.mbrList.length ≠ 80 * maxKR)
    (hcap : env.sgMem tp = true)
    (hrelay : (s.pubdist && env.certName1 tp == "relay") = false)
    (hconv : env.pkToCurve (env.certPk tp) = none) :
    mapLookup tp (addGroupMem env s tp ts).1.mbrList = none ∧
    (addGroupMem env s tp ts).2 = [] := by
  simp [addGroupMem, hkm, hsz, hcap, hrelay, hconv, mapLookup_mapErase]

/-- The key-maker state of C10's witness: the thumbprint of all 7s is already
enrolled with some X25519 key before the failing request arrives. -/
def sW10 : DState :=
  { s0 with keyMaker := true, mbrList := [(List.replicate 32 7, List.replicate 32 2)] }

/-- The environment of C10's witness: the key conversion always fails. -/
def envW10 : Env := { env0 with pkToCurve := fun _ => none }

/-- Witness for C10: the previously enrolled member of all 7s is gone from
the table after its conversion-failing request. -/
theorem addGroupMem_conversion_failure_erases_witness :
    mapLookup (List.replicate 32 7) (addGroupMem envW10 sW10 (List.replicate 32 7) 5).1.mbrList = none ∧
    (addGroupMem envW10 sW10 (List.replicate 32 7) 5).2 = [] :=
  addGroupMem_conversion_failure_erases envW10 sW10 (List.replicate 32 7) 5
    (by decide) (by decide) (by decide) (by decide) (by decide)

/-- 1 while the distributor is still initializing, 0 afterwards: the budget
of connected(true) invocations still available. -/
def initMeasure (s : DState) : Nat := if s.init then 1 else 0

@[simp] theorem connectedTrueCount_nil : connectedTrueCount [] = 0 := rfl

@[simp] theorem connectedTrueCount_cons (e : Effect) (es : List Effect) :
    connectedTrueCount (e :: es) =
      (match e with
       | Effect.connected true => 1
       | _ => 0) + connectedTrueCount es := by
  unfold connectedTrueCount
  rw [List.countP_cons]
  cases e with
  | publishMR => simp
  | publishKR k => simp
  | newKey pk sk ct => simp
  | connected b =>
    cases b
    · simp
    · simp
      omega
  | unsubscribeMR => simp
  | subscribeKR => simp
  | subscribeMR => simp
  | oneTimeMR d => simp
  | oneTimeRekey d => simp

@[simp] theorem connectedTrueCount_append (a b : List Effect) :
    connectedTrueCount (a ++ b) = connectedTrueCount a + connectedTrueCount b :=
  List.countP_append _ _ _

@[simp] theorem connectedTrueCount_map_publishKR (l : List KROut) :
    connectedTrueCount (l.map Effect.publishKR) = 0 := by
  induction l with
  | nil => rfl
  | cons k rest ih => simp [ih]

theorem initDone_measure (s : DState) :
    connectedTrueCount (initDone s).2 + initMeasure (initDone s).1 = initMeasure s := by
  unfold initDone initMeasure
  split <;> simp_all

theorem publishMembershipReq_init (s : DState) :
    (publishMembershipReq s).1.init = s.init ∧
    connectedTrueCount (publishMembershipReq s).2 = 0 := by
  cases hsub : s.subr <;>
    simp [publishMembershipReq, cancelMRRefresh, hsub]

theorem recvContent_measure (env : Env) (s : DState) (p : KRPub) :
    connectedTrueCount (recvContent env s p).2 + initMeasure (recvContent env s p).1 ≤
      initMeasure s := by
  unfold recvContent
  simp only []
  split
  · simp
  split
  · simp
  split
  · simp
  split
  · simp
  split
  · cases hinit : s.init <;>
      simp [initDone, initMeasure, hinit]
  · split
    · simp
    split
    · simp
    split
    · simp
    · cases hinit : s.init <;>
        simp [initDone, receivedGK, cancelMRRefresh, initMeasure, hinit]

theorem recvRange_measure (env : Env) (s : DState) (p : KRPub) :
    connectedTrueCount (recvRange env s p).2 + initMeasure (recvRange env s p).1 ≤
      initMeasure s := by
  unfold recvRange
  simp only []
  split
  · split <;> simp
  · exact recvContent_measure env s p

theorem receiveSGKeyRecords_measure (env : Env) (s : DState) (p : KRPub) :
    connectedTrueCount (receiveSGKeyRecords env s p).2 +
      initMeasure (receiveSGKeyRecords env s p).1 ≤ initMeasure s := by
  unfold receiveSGKeyRecords
  simp only []
  split
  · simp
  split
  · split
    · rename_i hlt
      have h := publishMembershipReq_init { s with keyMaker := false, kmtp := p.signerTp }
      simp [h.1, h.2, initMeasure]
    · simp
  split
  · have h := publishMembershipReq_init s
    simp [initMeasure, h.1, h.2]
  split
  · simp
  · split <;> split <;> exact recvRange_measure env _ p

theorem makeSGKey_measure (env : Env) (s : DState) (pk sk : Bytes) (ct now ts : Nat) :
    connectedTrueCount (makeSGKey env s pk sk ct now ts).2 +
      initMeasure (makeSGKey env s pk sk ct now ts).1 ≤ initMeasure s := by
  unfold makeSGKey
  simp only []
  cases hinit : s.init
  · simp [initMeasure, hinit]
  · by_cases hm : (sweepMbrs env now s.mbrList).length = 0
    · simp [initMeasure, hinit, hm, List.length_eq_zero]
    · have hm2 : ¬ sweepMbrs env now s.mbrList = [] := by
        intro hc
        exact hm (by simp [hc])
      simp [initMeasure, hinit, hm2, initDone]

theorem sgkeyTimeout_measure (env : Env) (s : DState) (pk sk : Bytes) (ct now ts : Nat) :
    connectedTrueCount (sgkeyTimeout env s pk sk ct now ts).2 +
      initMeasure (sgkeyTimeout env s pk sk ct now ts).1 ≤ initMeasure s := by
  unfold sgkeyTimeout
  simp only []
  split
  · simp
  · have h := makeSGKey_measure env s pk sk ct now ts
    simp
    omega

theorem addGroupMem_measure (env : Env) (s : DState) (tp : Bytes) (ts : Nat) :
    connectedTrueCount (addGroupMem env s tp ts).2 +
      initMeasure (addGroupMem env s tp ts).1 ≤ initMeasure s := by
  unfold addGroupMem
  simp only []
  split
  · simp
  split
  · simp
  split
  · simp
  split
  · simp
  split
  · simp [initMeasure]
  · split
    · simp [initMeasure]
    · cases hinit : s.init <;>
        simp [initDone, initMeasure, hinit]

theorem removeGroupMem_measure (env : Env) (s : DState) (tp : Bytes) (rk : Bool)
    (pk sk : Bytes) (ct now ts : Nat) :
    connectedTrueCount (removeGroupMem env s tp rk pk sk ct now ts).2 +
      initMeasure (removeGroupMem env s tp rk pk sk ct now ts).1 ≤ initMeasure s := by
  unfold removeGroupMem
  simp only []
  split
  · exact makeSGKey_measure env _ pk sk ct now ts
  · simp [initMeasure]

theorem updateSigningKey_measure (env : Env) (s : DState) (chain0 certTp : Bytes)
    (skOk pkOk : Bool) (r : DState × List Effect)
    (h : updateSigningKey env s chain0 certTp skOk pkOk = Except.ok r) :
    connectedTrueCount r.2 + initMeasure r.1 ≤ initMeasure s := by
  unfold updateSigningKey at h
  simp only [] at h
  split at h
  · exact absurd h (by simp)
  split at h
  · cases h
    simp [initMeasure]
  split at h
  · cases h
    simp [initMeasure]
  split at h
  · cases h
    have hp := publishMembershipReq_init { s with tp := chain0, subr := env.sgMem chain0 }
    simp [initMeasure, hp.1, hp.2]
  split at h
  · cases h
    simp [initMeasure]
  · cases h
    simp [initMeasure]

theorem step_measure (env : Env) (s : DState) (e : Event) :
    connectedTrueCount (step env s e).2 + initMeasure (step env s e).1 ≤ initMeasure s := by
  cases e with
  | recvKR p => exact receiveSGKeyRecords_measure env s p
  | mrRequest tp ts => exact addGroupMem_measure env s tp ts
  | rekeyTimeout pk sk ct now ts => exact sgkeyTimeout_measure env s pk sk ct now ts
  | mrTimeout =>
    have h := publishMembershipReq_init s
    simp [step, initMeasure, h.1, h.2]
  | confirm ok =>
    cases ok
    · simp [step, initMeasure]
    · have h := initDone_measure s
      simp only [step, eq_self_iff_true, if_true]
      omega
  | removeMem tp rk pk sk ct now ts => exact removeGroupMem_measure env s tp rk pk sk ct now ts
  | electionDone elected epoch pk sk ct now ts =>
    simp only [step]
    split
    · simp [initMeasure]
    · have h := sgkeyTimeout_measure env { s with keyMaker := elected, KMepoch := epoch }
        pk sk ct now ts
      have hm : initMeasure ({ s with keyMaker := elected, KMepoch := epoch } : DState) =
          initMeasure s := by
        simp [initMeasure]
      simp only [connectedTrueCount_cons, connectedTrueCount_nil]
      simp only [hm] at h
      omega
  | keyUpdate chain0 certTp skOk pkOk =>
    simp only [step]
    split
    · rename_i r hr
      exact updateSigningKey_measure env s chain0 certTp skOk pkOk r hr
    · simp [initMeasure]
  | relayInit =>
    have h := initDone_measure s
    simp only [step]
    omega


theorem run_measure (env : Env) (evs : List Event) : ∀ s : DState,
    connectedTrueCount (run env s evs).2 + initMeasure (run env s evs).1 ≤ initMeasure s := by
  induction evs with
  | nil => intro s; simp [run, connectedTrueCount, initMeasure]
  | cons e rest ih =>
    intro s
    have h1 := step_measure env s e
    have h2 := ih (step env s e).1
    simp only [run, connectedTrueCount_append]
    omega

/-- C9: over every event sequence delivered to a distributor, connected(true)
fires at most once; moreover initDone, the single function all init-exit
paths call, leaves the init flag cleared and invokes the callback exactly
when the flag was set (clearing it in the same step, so the invocation
consumes the whole remaining budget). -/
theorem connected_true_at_most_once :
    (∀ (env : Env) (s : DState) (evs : List Event),
       connectedTrueCount (run env s evs).2 ≤ 1) ∧
    (∀ s : DState, (initDone s).1.init = false ∧
       connectedTrueCount (initDone s).2 = initMeasure s) := by
  constructor
  · intro env s evs
    have h := run_measure env evs s
    have hm : initMeasure s ≤ 1 := by
      unfold initMeasure
      split <;> simp
    omega
  · intro s
    cases hinit : s.init <;>
      simp [initDone, initMeasure, connectedTrueCount, hinit, List.countP_cons]

theorem headD_take_drop (l : List EGKR) (m r : Nat) (d : EGKR) (hr : 0 < r) :
    ((l.drop m).take r).headD d = l.getD m d := by
  rw [List.headD_eq_head?, List.head?_eq_getElem?, List.getElem?_take, if_pos hr,
      List.getElem?_drop, Nat.add_zero, List.getD_eq_getElem?_getD]

theorem getLastD_take_drop (l : List EGKR) (m r : Nat) (d : EGKR) (hr : 0 < r)
    (hlen : m + r ≤ l.length) :
    ((l.drop m).take r).getLastD d = l.getD (m + r - 1) d := by
  have hlen2 : ((l.drop m).take r).length = r := by
    rw [List.length_take, List.length_drop]
    omega
  rw [List.getLastD_eq_getLast?, List.getLast?_eq_getElem?, hlen2, List.getElem?_take,
      if_pos (by omega), List.getElem?_drop, List.getD_eq_getElem?_getD]
  congr 2
  omega

theorem krGo_spec (epoch ct ts : Nat) (pk selfTp : Bytes) (pairs : List EGKR) :
    ∀ fuel i s, pairs ≠ [] → i * maxKR + s = pairs.length →
      (fuel - 1) * maxKR < s → s ≤ fuel * maxKR →
      ((krGo epoch ct ts pk selfTp pairs fuel i s).map (fun x => x.recs)).flatten =
          pairs.drop (i * maxKR) ∧
      (krGo epoch ct ts pk selfTp pairs fuel i s).length = fuel ∧
      ∀ pub ∈ krGo epoch ct ts pk selfTp pairs fuel i s,
        pub.recs ≠ [] ∧ pub.recs.length ≤ maxKR ∧ pub.epoch = epoch ∧ pub.ts = ts ∧
        pub.ct = ct ∧ pub.pk = pk ∧ pub.conf = false ∧
        pub.tpl = (pub.recs.headD ([], [])).1.take 4 ∧
        pub.tph = (pub.recs.getLastD ([], [])).1.take 4 ∧
        pub.recs.Sublist pairs := by
  have hk : maxKR = 7 := rfl
  intro fuel
  induction fuel with
  | zero =>
    intro i s hne hsum h1 h2
    exfalso
    rw [hk] at h1 h2
    omega
  | succ fuel ih =>
    intro i s hne hsum h1 h2
    have hplen : (pairs.length == 0) = false := by
      simp [List.length_eq_zero]
      exact hne
    have hchunksub : ∀ r : Nat, ((pairs.drop (i * maxKR)).take r).Sublist pairs :=
      fun r => (List.take_sublist _ _).trans (List.drop_sublist _ _)
    rcases Nat.eq_zero_or_pos fuel with hf | hf
    · subst hf
      have hs : 0 < s := by rw [hk] at h1; omega
      have hdlen : (pairs.drop (i * maxKR)).length = s := by
        rw [List.length_drop]
        omega
      have hchunk : (pairs.drop (i * maxKR)).take s = pairs.drop (i * maxKR) :=
        List.take_of_length_le (le_of_eq hdlen)
      simp only [krGo, hplen, Bool.false_eq_true, if_false,
                 if_neg (show ¬ (0:Nat) < 0 from by omega)]
      refine ⟨?_, by simp, ?_⟩
      · simp [publishKeyRange, hchunk]
      · intro pub hpub
        simp only [List.mem_singleton] at hpub
        subst hpub
        refine ⟨?_, ?_, rfl, rfl, rfl, rfl, rfl, ?_, ?_, hchunksub s⟩
        · simp only [publishKeyRange]
          intro hcon
          rw [hchunk] at hcon
          have := hdlen
          rw [hcon] at this
          simp at this
          omega
        · simp only [publishKeyRange, List.length_take]
          rw [hk] at h2 ⊢
          omega
        · simp only [publishKeyRange]
          rw [headD_take_drop pairs (i * maxKR) s ([], []) hs]
        · simp only [publishKeyRange]
          rw [getLastD_take_drop pairs (i * maxKR) s ([], []) hs (by omega)]
    · have hs7 : maxKR < s := by rw [hk] at h1 ⊢; omega
      have hrec := ih (i + 1) (s - maxKR) hne
        (by rw [hk] at hsum ⊢; omega)
        (by rw [hk] at h1 ⊢; omega)
        (by rw [hk] at h2 ⊢; omega)
      have hmul : (i + 1) * maxKR = i * maxKR + maxKR := by ring
      simp only [krGo, hplen, Bool.false_eq_true, if_false, if_pos hf]
      refine ⟨?_, ?_, ?_⟩
      · simp only [List.map_cons, List.flatten_cons]
        rw [hrec.1, hmul, ← List.drop_drop]
        simp [publishKeyRange, List.take_append_drop]
      · simp only [List.length_cons, hrec.2.1]
      · intro pub hpub
        simp only [List.mem_cons] at hpub
        rcases hpub with hpub | hpub
        · subst hpub
          refine ⟨?_, ?_, rfl, rfl, rfl, rfl, rfl, ?_, ?_, hchunksub maxKR⟩
          · simp only [publishKeyRange]
            intro hcon
            have hlt : ((pairs.drop (i * maxKR)).take maxKR).length = maxKR := by
              rw [List.length_take, List.length_drop]
              rw [hk] at hs7 hsum ⊢
              omega
            rw [hcon] at hlt
            rw [hk] at hlt
            simp at hlt
          · simp only [publishKeyRange, List.length_take]
            omega
          · simp only [publishKeyRange]
            rw [headD_take_drop pairs (i * maxKR) maxKR ([], []) (by rw [hk]; omega)]
          · simp only [publishKeyRange]
            rw [getLastD_take_drop pairs (i * maxKR) maxKR ([], []) (by rw [hk]; omega)
                  (by rw [hk] at hsum hs7 ⊢; omega)]
        · exact hrec.2.2 pub hpub

theorem krPubsOf_append (a b : List Effect) :
    krPubsOf (a ++ b) = krPubsOf a ++ krPubsOf b :=
  List.filterMap_append _ _ _

theorem krPubsOf_map_publishKR (l : List KROut) :
    krPubsOf (l.map Effect.publishKR) = l := by
  induction l with
  | nil => rfl
  | cons k rest ih => simpa [krPubsOf, List.filterMap_cons] using ih

theorem krPubsOf_ite_initDone (c : Prop) [Decidable c] (s1 : DState) :
    krPubsOf (if c then initDone s1 else (s1, [])).2 = [] := by
  split
  · unfold initDone
    split <;> rfl
  · rfl

theorem makeSGKey_krPubs (env : Env) (s : DState) (pk sk : Bytes) (ct now ts : Nat) :
    krPubsOf (makeSGKey env s pk sk ct now ts).2 =
      krGo s.KMepoch ct ts pk s.tp (sealedPairs env sk (sweepMbrs env now s.mbrList))
        (if (sealedPairs env sk (sweepMbrs env now s.mbrList)).length ≤ maxKR then 1
         else ((sealedPairs env sk (sweepMbrs env now s.mbrList)).length + maxKR - 1) / maxKR)
        0 (sealedPairs env sk (sweepMbrs env now s.mbrList)).length := by
  unfold makeSGKey
  simp only []
  rw [show ∀ es, krPubsOf (Effect.newKey pk sk ct :: es) = krPubsOf es from fun es => rfl]
  rw [krPubsOf_append, krPubsOf_ite_initDone, krPubsOf_map_publishKR, List.append_nil]

/-- C6: makeSGKey with n ≥ 1 members surviving the expiry sweep. The
(thumbprint, sealed key) pairs, in the byte-lexicographic thumbprint order
the std::map maintains (hypothesis hsorted), are partitioned into
ceil(n / maxKR) key-record publications: each carries at least one and at
most maxKR records, all carry the same timestamp, epoch, creation time and
group public key, each publication's name carries the 4-byte prefixes of its
first and last record's thumbprint, each publication's record list stays
sorted, and the concatenation of the record lists over all publications is
exactly the sealed swept member list (whose thumbprints are exactly the swept
member table's). -/
theorem makeSGKey_range_partition (env : Env) (s : DState) (pk sk : Bytes) (ct now ts : Nat)
    (hsorted : List.Pairwise (fun a b => arrayLt a.1 b.1 = true) s.mbrList)
    (hne : sweepMbrs env now s.mbrList ≠ []) :
    (krPubsOf (makeSGKey env s pk sk ct now ts).2).length =
        ((sealedPairs env sk (sweepMbrs env now s.mbrList)).length + maxKR - 1) / maxKR ∧
    ((krPubsOf (makeSGKey env s pk sk ct now ts).2).map (fun x => x.recs)).flatten =
        sealedPairs env sk (sweepMbrs env now s.mbrList) ∧
    (sealedPairs env sk (sweepMbrs env now s.mbrList)).map Prod.fst =
        (sweepMbrs env now s.mbrList).map Prod.fst ∧
    ∀ pub ∈ krPubsOf (makeSGKey env s pk sk ct now ts).2,
      pub.recs ≠ [] ∧ pub.recs.length ≤ maxKR ∧ pub.epoch = s.KMepoch ∧ pub.ts = ts ∧
      pub.ct = ct ∧ pub.pk = pk ∧
      pub.tpl = (pub.recs.headD ([], [])).1.take 4 ∧
      pub.tph = (pub.recs.getLastD ([], [])).1.take 4 ∧
      List.Pairwise (fun a b => arrayLt a.1 b.1 = true) pub.recs := by
  have hk : maxKR = 7 := rfl
  set pairs := sealedPairs env sk (sweepMbrs env now s.mbrList) with hpairs
  set n := pairs.length with hn
  have hpne : pairs ≠ [] := by
    intro hc
    apply hne
    have : pairs.length = 0 := by rw [hc]; rfl
    rw [hpairs] at this
    unfold sealedPairs at this
    rw [List.length_map] at this
    exact List.length_eq_zero.mp this
  have hnpos : 0 < n := by
    rcases Nat.eq_zero_or_pos n with h | h
    · exact absurd (List.length_eq_zero.mp (hn ▸ h)) hpne
    · exact h
  have hp := makeSGKey_krPubs env s pk sk ct now ts
  rw [← hpairs, ← hn] at hp
  have hinv1 : 0 * maxKR + n = pairs.length := by omega
  have hinv2 : ((if n ≤ maxKR then 1 else (n + maxKR - 1) / maxKR) - 1) * maxKR < n := by
    rw [hk]
    split
    · omega
    · rename_i hgt
      have hdm := Nat.div_add_mod (n + 7 - 1) 7
      have hmod := Nat.mod_lt (n + 7 - 1) (show 0 < 7 by omega)
      omega
  have hinv3 : n ≤ (if n ≤ maxKR then 1 else (n + maxKR - 1) / maxKR) * maxKR := by
    rw [hk]
    split
    · omega
    · rename_i hgt
      have hdm := Nat.div_add_mod (n + 7 - 1) 7
      have hmod := Nat.mod_lt (n + 7 - 1) (show 0 < 7 by omega)
      omega
  have hspec := krGo_spec s.KMepoch ct ts pk s.tp pairs
    (if n ≤ maxKR then 1 else (n + maxKR - 1) / maxKR) 0 n hpne hinv1 hinv2 hinv3
  have hpsorted : List.Pairwise (fun a b => arrayLt a.1 b.1 = true) pairs := by
    rw [hpairs]
    unfold sealedPairs
    refine List.Pairwise.map _ (fun a b h => h) ?_
    exact hsorted.sublist (List.filter_sublist _)
  refine ⟨?_, ?_, ?_, ?_⟩
  · rw [hp, hspec.2.1]
    rw [hk]
    split
    · rename_i hle
      omega
    · rfl
  · rw [hp]
    simpa using hspec.1
  · rw [hpairs]
    unfold sealedPairs
    rw [List.map_map]
    rfl
  · intro pub hpub
    rw [hp] at hpub
    have h := hspec.2.2 pub hpub
    exact ⟨h.1, h.2.1, h.2.2.1, h.2.2.2.1, h.2.2.2.2.1, h.2.2.2.2.2.1,
           h.2.2.2.2.2.2.2.1, h.2.2.2.2.2.2.2.2.1,
           hpsorted.sublist h.2.2.2.2.2.2.2.2.2⟩

/-- The key maker of C6's witness: eight sorted members enrolled, so one
rekey must emit two publications (maxKR = 7). -/
def sW6 : DState :=
  { s0 with keyMaker := true,
            mbrList := [([1], [51]), ([2], [52]), ([3], [53]), ([4], [54]),
                        ([5], [55]), ([6], [56]), ([7], [57]), ([8], [58])] }

/-- Witness for C6: the concrete 8-member rekey at creation time 100,
sweep time 5 and publication timestamp 42. -/
theorem makeSGKey_range_partition_witness :
    (krPubsOf (makeSGKey env0 sW6 [7] [8] 100 5 42).2).length =
        ((sealedPairs env0 [8] (sweepMbrs env0 5 sW6.mbrList)).length + maxKR - 1) / maxKR ∧
    ((krPubsOf (makeSGKey env0 sW6 [7] [8] 100 5 42).2).map (fun x => x.recs)).flatten =
        sealedPairs env0 [8] (sweepMbrs env0 5 sW6.mbrList) ∧
    (sealedPairs env0 [8] (sweepMbrs env0 5 sW6.mbrList)).map Prod.fst =
        (sweepMbrs env0 5 sW6.mbrList).map Prod.fst ∧
    ∀ pub ∈ krPubsOf (makeSGKey env0 sW6 [7] [8] 100 5 42).2,
      pub.recs ≠ [] ∧ pub.recs.length ≤ maxKR ∧ pub.epoch = sW6.KMepoch ∧ pub.ts = 42 ∧
      pub.ct = 100 ∧ pub.pk = [7] ∧
      pub.tpl = (pub.recs.headD ([], [])).1.take 4 ∧
      pub.tph = (pub.recs.getLastD ([], [])).1.take 4 ∧
      List.Pairwise (fun a b => arrayLt a.1 b.1 = true) pub.recs :=
  makeSGKey_range_partition env0 sW6 [7] [8] 100 5 42 (by decide) (by decide)

end DistSGKey
